import Mathlib

/-!
Verification of the AI Weekly pipeline (harvest / enrich / rank / summarise /
publish).  Each Python function that a claim refers to is embedded as a Lean
definition translated from the source; external I/O (HTTP fetches, S3, SES,
LLM calls, clock) is passed in as explicit parameters or function-valued
environment fields, and Python exceptions are modelled with `Except`.
Python floats are idealised as real numbers (`ℝ`) where they mix with
`math.log`, and as exact rationals (`ℚ`) where the source only ever divides
integers (min-max normalisation, Jaccard similarity).
-/

namespace AIWeekly

/-- Calendar date: the fields of a Python `datetime` the pipeline reads. -/
structure Date where
  year : Nat
  month : Nat
  day : Nat
deriving Repr, DecidableEq

/-- The `Paper` dataclass of `harvest.py`.  `_normalized_stars` models the
transient attribute set by `rank.normalize_github_stars` and read back with
`getattr(paper, '_normalized_stars', 0.0)`, hence its default 0. -/
structure Paper where
  id : String
  title : String
  authors : List String
  abstract : String
  published_date : Date
  url : String
  source : String
  categories : List String
  citation_count : Option Nat := none
  github_url : Option String := none
  github_stars : Option Nat := none
  specter2_embedding : Option (List ℚ) := none
  score : Option ℝ := none
  summary : Option String := none
  normalized_stars : ℚ := 0

/-- The star count `p.github_stars or 0` used throughout `rank.py`. -/
def starCount (p : Paper) : Nat := p.github_stars.getD 0

/-- Python `max(l)` for a non-empty list (0 for the empty list, which the
source never reaches). -/
def listMax : List Nat → Nat
  | [] => 0
  | x :: xs => xs.foldl Nat.max x

/-- Python `min(l)` for a non-empty list (0 for the empty list, which the
source never reaches). -/
def listMin : List Nat → Nat
  | [] => 0
  | x :: xs => xs.foldl Nat.min x

/-- `rank.normalize_github_stars`: min-max scaling of GitHub stars.  Division
of integers is idealised as exact rational division. -/
def normalize_github_stars (papers : List Paper) : List Paper :=
  if papers.isEmpty then papers
  else
    let star_counts := papers.map starCount
    if listMax star_counts = listMin star_counts then
      papers.map (fun p => { p with normalized_stars := 0 })
    else
      papers.map (fun p =>
        { p with normalized_stars :=
            ((starCount p : ℚ) - (listMin star_counts : ℚ)) /
              ((listMax star_counts : ℚ) - (listMin star_counts : ℚ)) })

/-- `rank.calculate_paper_score`: weighted sum of the log-scaled citation
count, the normalised star count and the zero social-buzz placeholder. -/
noncomputable def calculate_paper_score (paper : Paper)
    (citation_weight github_weight social_weight : ℝ) : ℝ :=
  let citations := paper.citation_count.getD 0
  let citation_score := Real.log ((citations : ℝ) + 1)
  let github_score : ℝ := (paper.normalized_stars : ℝ)
  let social_score : ℝ := 0
  citation_weight * citation_score + github_weight * github_score +
    social_weight * social_score

/-- The sort key `lambda p: p.score or 0` of `rank.rank_papers` (a score of
`None` and a score of `0.0` both map to 0). -/
noncomputable def scoreKey (p : Paper) : ℝ := p.score.getD 0

-- Stable insertion of a paper into a descending-sorted list: the new paper
-- goes before the first element whose key is not larger, so an earlier paper
-- precedes later papers of equal key.
open Classical in
noncomputable def insertDesc (key : Paper → ℝ) (x : Paper) : List Paper → List Paper
  | [] => [x]
  | q :: rest => if key q ≤ key x then x :: q :: rest else q :: insertDesc key x rest

/-- Stable descending sort by `key`: the model of Python
`sorted(papers, key=..., reverse=True)` (any two stable sorts of the same
total preorder agree). -/
noncomputable def sortDesc (key : Paper → ℝ) : List Paper → List Paper
  | [] => []
  | x :: xs => insertDesc key x (sortDesc key xs)

/-- The papers after `rank_papers` has normalised stars and written each
paper's score, in input order (the source mutates the papers in place). -/
noncomputable def scoredPapers (papers : List Paper) (wc wg ws : ℝ) : List Paper :=
  (normalize_github_stars papers).map
    (fun p => { p with score := some (calculate_paper_score p wc wg ws) })

/-- `rank.rank_papers`: normalise stars, score every paper, sort by score
descending (stably) and keep the top `top_k`. -/
noncomputable def rank_papers (papers : List Paper) (top_k : Nat)
    (wc wg ws : ℝ) : List Paper :=
  if papers.isEmpty then []
  else (sortDesc scoreKey (scoredPapers papers wc wg ws)).take top_k

/-! ### Helper lemmas about the stable descending sort -/

lemma mem_insertDesc (key : Paper → ℝ) (x b : Paper) :
    ∀ l : List Paper, b ∈ insertDesc key x l ↔ b = x ∨ b ∈ l
  | [] => by simp [insertDesc]
  | q :: rest => by
    simp only [insertDesc]
    split
    · simp [List.mem_cons]
    · simp only [List.mem_cons, mem_insertDesc key x b rest]
      tauto

lemma sorted_insertDesc (key : Paper → ℝ) (x : Paper) :
    ∀ l : List Paper, List.Sorted (fun p q => key q ≤ key p) l →
      List.Sorted (fun p q => key q ≤ key p) (insertDesc key x l)
  | [], _ => by simp [insertDesc]
  | q :: rest, h => by
    rw [List.sorted_cons] at h
    simp only [insertDesc]
    split
    · next hle =>
      refine List.sorted_cons.mpr ⟨?_, List.sorted_cons.mpr h⟩
      intro b hb
      rcases List.mem_cons.mp hb with rfl | hb
      · exact hle
      · exact le_trans (h.1 b hb) hle
    · next hle =>
      refine List.sorted_cons.mpr ⟨?_, sorted_insertDesc key x rest h.2⟩
      intro b hb
      rcases (mem_insertDesc key x b rest).mp hb with rfl | hb
      · exact le_of_not_le hle
      · exact h.1 b hb

lemma sorted_sortDesc (key : Paper → ℝ) :
    ∀ l : List Paper, List.Sorted (fun p q => key q ≤ key p) (sortDesc key l)
  | [] => by simp [sortDesc]
  | x :: xs => sorted_insertDesc key x _ (sorted_sortDesc key xs)

lemma filter_insertDesc (key : Paper → ℝ) (x : Paper) (v : ℝ) :
    ∀ l : List Paper,
      (insertDesc key x l).filter (fun p => decide (key p = v)) =
        ((x :: l).filter (fun p => decide (key p = v)))
  | [] => rfl
  | q :: rest => by
    simp only [insertDesc]
    split
    · rfl
    · next hle =>
      have hlt : key x < key q := lt_of_not_le hle
      have ih := filter_insertDesc key x v rest
      by_cases hq : key q = v <;> by_cases hx : key x = v
      · exact absurd (hq.trans hx.symm) (ne_of_gt hlt)
      · simp [List.filter_cons, hq, hx, ih]
      · simp [List.filter_cons, hq, hx, ih]
      · simp [List.filter_cons, hq, hx, ih]

lemma filter_sortDesc (key : Paper → ℝ) (v : ℝ) :
    ∀ l : List Paper,
      (sortDesc key l).filter (fun p => decide (key p = v)) =
        l.filter (fun p => decide (key p = v))
  | [] => rfl
  | x :: xs => by
    rw [sortDesc, filter_insertDesc key x v (sortDesc key xs)]
    simp only [List.filter_cons, filter_sortDesc key v xs]

/-! ### Claim C1 -/

/-- C1: for every list of papers and every `top_k`, `rank_papers` returns at
most `top_k` papers, sorted in descending order of score, and papers of equal
score keep the relative order they have in the (scored) input list: the
returned papers of any fixed score form a sublist of the scored input. -/
theorem rank_papers_spec (papers : List Paper) (top_k : Nat) (wc wg ws : ℝ) :
    (rank_papers papers top_k wc wg ws).length ≤ top_k ∧
    List.Sorted (fun p q => scoreKey q ≤ scoreKey p)
      (rank_papers papers top_k wc wg ws) ∧
    ∀ v : ℝ,
      ((rank_papers papers top_k wc wg ws).filter
          (fun p => decide (scoreKey p = v))).Sublist
        ((scoredPapers papers wc wg ws).filter (fun p => decide (scoreKey p = v))) := by
  by_cases hemp : papers.isEmpty
  · refine ⟨?_, ?_, ?_⟩ <;> simp [rank_papers, hemp, List.Sorted]
  · have hr : rank_papers papers top_k wc wg ws =
        (sortDesc scoreKey (scoredPapers papers wc wg ws)).take top_k := by
      rw [rank_papers, if_neg hemp]
    refine ⟨?_, ?_, ?_⟩
    · rw [hr, List.length_take]
      exact min_le_left _ _
    · rw [hr]
      exact List.Pairwise.sublist (List.take_sublist _ _)
        (sorted_sortDesc scoreKey (scoredPapers papers wc wg ws))
    · intro v
      rw [hr, ← filter_sortDesc scoreKey v (scoredPapers papers wc wg ws)]
      exact List.Sublist.filter _ (List.take_sublist _ _)

/-! ### Helper lemmas about list maxima and minima -/

lemma foldl_max_facts : ∀ (l : List Nat) (a : Nat),
    (a ≤ l.foldl Nat.max a ∧ ∀ x ∈ l, x ≤ l.foldl Nat.max a) ∧
      (l.foldl Nat.max a = a ∨ l.foldl Nat.max a ∈ l)
  | [], a => ⟨⟨le_refl a, by simp⟩, Or.inl rfl⟩
  | y :: l, a => by
    have ih := foldl_max_facts l (Nat.max a y)
    simp only [List.foldl_cons]
    refine ⟨⟨le_trans (Nat.le_max_left a y) ih.1.1, ?_⟩, ?_⟩
    · intro x hx
      rcases List.mem_cons.mp hx with rfl | hx
      · exact le_trans (Nat.le_max_right a x) ih.1.1
      · exact ih.1.2 x hx
    · rcases ih.2 with h | h
      · rcases max_choice a y with hm | hm
        · exact Or.inl (h.trans hm)
        · exact Or.inr (List.mem_cons.mpr (Or.inl (h.trans hm)))
      · exact Or.inr (List.mem_cons_of_mem _ h)

lemma foldl_min_facts : ∀ (l : List Nat) (a : Nat),
    (l.foldl Nat.min a ≤ a ∧ ∀ x ∈ l, l.foldl Nat.min a ≤ x) ∧
      (l.foldl Nat.min a = a ∨ l.foldl Nat.min a ∈ l)
  | [], a => ⟨⟨le_refl a, by simp⟩, Or.inl rfl⟩
  | y :: l, a => by
    have ih := foldl_min_facts l (Nat.min a y)
    simp only [List.foldl_cons]
    refine ⟨⟨le_trans ih.1.1 (Nat.min_le_left a y), ?_⟩, ?_⟩
    · intro x hx
      rcases List.mem_cons.mp hx with rfl | hx
      · exact le_trans ih.1.1 (Nat.min_le_right a x)
      · exact ih.1.2 x hx
    · rcases ih.2 with h | h
      · rcases min_choice a y with hm | hm
        · exact Or.inl (h.trans hm)
        · exact Or.inr (List.mem_cons.mpr (Or.inl (h.trans hm)))
      · exact Or.inr (List.mem_cons_of_mem _ h)

lemma le_listMax {l : List Nat} {x : Nat} (hx : x ∈ l) : x ≤ listMax l := by
  cases l with
  | nil => cases hx
  | cons y ys =>
    rcases List.mem_cons.mp hx with rfl | hx
    · exact (foldl_max_facts ys x).1.1
    · exact (foldl_max_facts ys y).1.2 x hx

lemma listMax_mem {l : List Nat} (h : l ≠ []) : listMax l ∈ l := by
  cases l with
  | nil => exact absurd rfl h
  | cons y ys =>
    rcases (foldl_max_facts ys y).2 with hm | hm
    · rw [listMax, hm]; exact List.mem_cons_self _ _
    · exact List.mem_cons_of_mem _ hm

lemma listMin_le {l : List Nat} {x : Nat} (hx : x ∈ l) : listMin l ≤ x := by
  cases l with
  | nil => cases hx
  | cons y ys =>
    rcases List.mem_cons.mp hx with rfl | hx
    · exact (foldl_min_facts ys x).1.1
    · exact (foldl_min_facts ys y).1.2 x hx

lemma listMin_mem {l : List Nat} (h : l ≠ []) : listMin l ∈ l := by
  cases l with
  | nil => exact absurd rfl h
  | cons y ys =>
    rcases (foldl_min_facts ys y).2 with hm | hm
    · rw [listMin, hm]; exact List.mem_cons_self _ _
    · exact List.mem_cons_of_mem _ hm

lemma allEq_iff_max_eq_min (papers : List Paper) (h : papers ≠ []) :
    (∀ p ∈ papers, ∀ q ∈ papers, starCount p = starCount q) ↔
      listMax (papers.map starCount) = listMin (papers.map starCount) := by
  have hne : papers.map starCount ≠ [] := by
    simpa using h
  constructor
  · intro hall
    obtain ⟨p, hp, hpe⟩ := List.mem_map.mp (listMax_mem hne)
    obtain ⟨q, hq, hqe⟩ := List.mem_map.mp (listMin_mem hne)
    rw [← hpe, ← hqe]
    exact hall p hp q hq
  · intro heq p hp q hq
    have h1 : starCount p ≤ listMax (papers.map starCount) :=
      le_listMax (List.mem_map_of_mem _ hp)
    have h2 : listMin (papers.map starCount) ≤ starCount p :=
      listMin_le (List.mem_map_of_mem _ hp)
    have h3 : starCount q ≤ listMax (papers.map starCount) :=
      le_listMax (List.mem_map_of_mem _ hq)
    have h4 : listMin (papers.map starCount) ≤ starCount q :=
      listMin_le (List.mem_map_of_mem _ hq)
    omega

/-! ### Claim C2 -/

/-- C2: for every non-empty list of papers, `normalize_github_stars` assigns
0 to every paper when all star counts (missing treated as 0) are equal;
otherwise it assigns `(stars - min) / (max - min)`, a value in `[0, 1]`,
with 1 at the maximum star count and 0 at the minimum. -/
theorem normalize_github_stars_spec (papers : List Paper) (h : papers ≠ []) :
    ((∀ p ∈ papers, ∀ q ∈ papers, starCount p = starCount q) →
      ∀ r ∈ normalize_github_stars papers, r.normalized_stars = 0) ∧
    ((¬ ∀ p ∈ papers, ∀ q ∈ papers, starCount p = starCount q) →
      ∀ r ∈ normalize_github_stars papers,
        r.normalized_stars =
          ((starCount r : ℚ) - (listMin (papers.map starCount) : ℚ)) /
            ((listMax (papers.map starCount) : ℚ) -
              (listMin (papers.map starCount) : ℚ)) ∧
        0 ≤ r.normalized_stars ∧ r.normalized_stars ≤ 1 ∧
        (starCount r = listMax (papers.map starCount) → r.normalized_stars = 1) ∧
        (starCount r = listMin (papers.map starCount) → r.normalized_stars = 0)) := by
  have hemp : papers.isEmpty = false := by
    simpa [List.isEmpty_iff] using h
  constructor
  · intro hall r hr
    rw [normalize_github_stars, hemp] at hr
    rw [if_pos ((allEq_iff_max_eq_min papers h).mp hall)] at hr
    simp only [Bool.false_eq_true, if_false] at hr
    obtain ⟨p, _, rfl⟩ := List.mem_map.mp hr
    rfl
  · intro hne r hr
    have hmaxmin :
        listMax (papers.map starCount) ≠ listMin (papers.map starCount) :=
      fun hc => hne ((allEq_iff_max_eq_min papers h).mpr hc)
    rw [normalize_github_stars, hemp] at hr
    simp only [Bool.false_eq_true, if_false, if_neg hmaxmin] at hr
    obtain ⟨p, hp, rfl⟩ := List.mem_map.mp hr
    set mx := listMax (papers.map starCount) with hmx
    set mn := listMin (papers.map starCount) with hmn
    have hle : mn ≤ starCount p := listMin_le (List.mem_map_of_mem _ hp)
    have hge : starCount p ≤ mx := le_listMax (List.mem_map_of_mem _ hp)
    have hlt : mn < mx := by
      rcases Nat.lt_or_ge mn mx with h1 | h1
      · exact h1
      · exact absurd (Nat.le_antisymm h1 (le_trans hle hge)) hmaxmin
    have hden : (0 : ℚ) < (mx : ℚ) - (mn : ℚ) := by
      have := (Nat.cast_lt (α := ℚ)).mpr hlt
      linarith
    have hnum : (0 : ℚ) ≤ (starCount p : ℚ) - (mn : ℚ) := by
      have := (Nat.cast_le (α := ℚ)).mpr hle
      linarith
    refine ⟨rfl, div_nonneg hnum (le_of_lt hden), ?_, ?_, ?_⟩
    · rw [div_le_one hden]
      have := (Nat.cast_le (α := ℚ)).mpr hge
      linarith
    · intro hsc
      have hsc' : (starCount p : ℚ) = (mx : ℚ) := by
        exact_mod_cast congrArg (Nat.cast (R := ℚ)) hsc
      show ((starCount p : ℚ) - (mn : ℚ)) / ((mx : ℚ) - (mn : ℚ)) = 1
      rw [hsc']
      exact div_self (ne_of_gt hden)
    · intro hsc
      have hsc' : (starCount p : ℚ) = (mn : ℚ) := by
        exact_mod_cast congrArg (Nat.cast (R := ℚ)) hsc
      show ((starCount p : ℚ) - (mn : ℚ)) / ((mx : ℚ) - (mn : ℚ)) = 0
      rw [hsc', sub_self, zero_div]

/-- Sample paper constructor used by concrete witnesses. -/
def mkPaper (pid t : String) : Paper :=
  { id := pid, title := t, authors := [], abstract := "",
    published_date := ⟨2026, 1, 1⟩, url := "", source := "arxiv",
    categories := [] }

/-- A sample paper with zero GitHub stars. -/
def paperLow : Paper := { mkPaper "1" "low stars" with github_stars := some 0 }

/-- A sample paper with four GitHub stars. -/
def paperHigh : Paper := { mkPaper "2" "high stars" with github_stars := some 4 }

/-- Witness for C2 at the concrete two-paper list with star counts 0 and 4. -/
theorem normalize_github_stars_spec_witness :
    ((∀ p ∈ [paperLow, paperHigh], ∀ q ∈ [paperLow, paperHigh],
        starCount p = starCount q) →
      ∀ r ∈ normalize_github_stars [paperLow, paperHigh],
        r.normalized_stars = 0) ∧
    ((¬ ∀ p ∈ [paperLow, paperHigh], ∀ q ∈ [paperLow, paperHigh],
        starCount p = starCount q) →
      ∀ r ∈ normalize_github_stars [paperLow, paperHigh],
        r.normalized_stars =
          ((starCount r : ℚ) -
              (listMin ([paperLow, paperHigh].map starCount) : ℚ)) /
            ((listMax ([paperLow, paperHigh].map starCount) : ℚ) -
              (listMin ([paperLow, paperHigh].map starCount) : ℚ)) ∧
        0 ≤ r.normalized_stars ∧ r.normalized_stars ≤ 1 ∧
        (starCount r = listMax ([paperLow, paperHigh].map starCount) →
          r.normalized_stars = 1) ∧
        (starCount r = listMin ([paperLow, paperHigh].map starCount) →
          r.normalized_stars = 0)) :=
  normalize_github_stars_spec [paperLow, paperHigh] (by simp)

/-! ### Claim C3 -/

/-- C3: `calculate_paper_score` returns exactly
`w_c * ln(citations + 1) + w_g * normalized_stars + w_s * 0` for any weights,
with a missing citation count treated as 0; a citation count of 0 contributes
`ln 1 = 0`, and the social term contributes 0 whatever `w_s` is. -/
theorem calculate_paper_score_spec (p : Paper) (wc wg ws : ℝ) :
    calculate_paper_score p wc wg ws =
      wc * Real.log ((p.citation_count.getD 0 : ℝ) + 1) +
        wg * (p.normalized_stars : ℝ) + ws * 0 ∧
    calculate_paper_score p wc wg ws =
      wc * Real.log ((p.citation_count.getD 0 : ℝ) + 1) +
        wg * (p.normalized_stars : ℝ) ∧
    (p.citation_count.getD 0 = 0 →
      Real.log ((p.citation_count.getD 0 : ℝ) + 1) = 0 ∧
      calculate_paper_score p wc wg ws = wg * (p.normalized_stars : ℝ)) := by
  refine ⟨rfl, by rw [calculate_paper_score]; ring, ?_⟩
  intro h0
  rw [h0]
  constructor
  · norm_num [Real.log_one]
  · rw [calculate_paper_score, h0]
    norm_num [Real.log_one]

/-! ### Title similarity (`enrich.SemanticScholarEnricher._titles_similar`) -/

/-- Python `str.split()` on a character list: split at whitespace runs and
drop empty pieces (`acc` holds the current word reversed). -/
def splitWordsAux : List Char → List Char → List String
  | [], acc => if acc.isEmpty then [] else [String.mk acc.reverse]
  | c :: cs, acc =>
    if c.isWhitespace then
      if acc.isEmpty then splitWordsAux cs []
      else String.mk acc.reverse :: splitWordsAux cs []
    else splitWordsAux cs (c :: acc)

/-- The word list of a title after `re.sub(r"[^\x5cw\x5cs]", "", title.lower())`
and `.split()`: lowercase, keep only word characters (alphanumeric or
underscore) and whitespace, then split on whitespace. -/
def titleWords (s : String) : List String :=
  splitWordsAux ((s.data.map Char.toLower).filter
    (fun c => c.isAlphanum || c = '_' || c.isWhitespace)) []

/-- The `set(...)` of words of a cleaned title. -/
def titleWordSet (s : String) : Finset String := (titleWords s).toFinset

/-- The Jaccard similarity `intersection / union if union > 0 else 0`
computed by `_titles_similar`, idealised as an exact rational. -/
def jaccardValue (title1 title2 : String) : ℚ :=
  let intersection := (titleWordSet title1 ∩ titleWordSet title2).card
  let union := (titleWordSet title1 ∪ titleWordSet title2).card
  if 0 < union then (intersection : ℚ) / (union : ℚ) else 0

/-- `enrich.SemanticScholarEnricher._titles_similar` with its default
threshold 0.8: reject when either word set is empty, else accept iff the
Jaccard similarity reaches the threshold. -/
def titles_similar (title1 title2 : String) : Bool :=
  if titleWordSet title1 = ∅ ∨ titleWordSet title2 = ∅ then false
  else decide ((4 : ℚ)/5 ≤ jaccardValue title1 title2)

lemma jaccardValue_comm (t1 t2 : String) : jaccardValue t1 t2 = jaccardValue t2 t1 := by
  rw [jaccardValue, jaccardValue, Finset.inter_comm, Finset.union_comm]

/-! ### Claim C4 (amended) -/

/-- C4 (amended): the title-similarity predicate is symmetric and
Jaccard-based over lowercase word sets with punctuation stripped, accepting
at threshold 0.8.  Two titles differing only by one inserted token, with
otherwise identical word sets, are accepted iff the shared word set has at
least 4 distinct words (the similarity is `n/(n+1)`, which reaches 0.8 iff
`n ≥ 4` and exceeds 0.8 iff `n ≥ 5`); two titles sharing no words are
rejected. -/
theorem titles_similar_spec :
    (∀ t1 t2, titles_similar t1 t2 = titles_similar t2 t1) ∧
    (∀ t1 t2, titleWordSet t1 ∩ titleWordSet t2 = ∅ →
      titles_similar t1 t2 = false) ∧
    (∀ t1 t2 tok, titleWordSet t2 = insert tok (titleWordSet t1) →
      tok ∉ titleWordSet t1 →
      ((titles_similar t1 t2 = true ↔ 4 ≤ (titleWordSet t1).card) ∧
       ((4 : ℚ)/5 < jaccardValue t1 t2 ↔ 5 ≤ (titleWordSet t1).card))) := by
  refine ⟨?_, ?_, ?_⟩
  · intro t1 t2
    by_cases h1 : titleWordSet t1 = ∅ <;> by_cases h2 : titleWordSet t2 = ∅ <;>
      simp [titles_similar, h1, h2, jaccardValue_comm t1 t2]
  · intro t1 t2 hint
    by_cases h1 : titleWordSet t1 = ∅
    · simp [titles_similar, h1]
    · by_cases h2 : titleWordSet t2 = ∅
      · simp [titles_similar, h2]
      · obtain ⟨x, hx⟩ := Finset.nonempty_iff_ne_empty.mpr h1
        have hu : 0 < (titleWordSet t1 ∪ titleWordSet t2).card :=
          Finset.card_pos.mpr ⟨x, Finset.mem_union_left _ hx⟩
        rw [titles_similar, if_neg (by tauto)]
        rw [jaccardValue]
        simp only [hint, Finset.card_empty, Nat.cast_zero, zero_div, if_pos hu]
        norm_num
  · intro t1 t2 tok h2 htok
    have hinter : titleWordSet t1 ∩ titleWordSet t2 = titleWordSet t1 := by
      rw [h2]
      exact Finset.inter_eq_left.mpr (Finset.subset_insert tok _)
    have hunion : titleWordSet t1 ∪ titleWordSet t2 = titleWordSet t2 := by
      rw [h2]
      exact Finset.union_eq_right.mpr (Finset.subset_insert tok _)
    have hcard2 : (titleWordSet t2).card = (titleWordSet t1).card + 1 := by
      rw [h2, Finset.card_insert_of_not_mem htok]
    set n := (titleWordSet t1).card with hn
    have hjac : jaccardValue t1 t2 = (n : ℚ) / ((n : ℚ) + 1) := by
      rw [jaccardValue]
      simp only [hinter, hunion, hcard2, ← hn]
      rw [if_pos (Nat.succ_pos n)]
      push_cast
      ring_nf
    have hpos : (0 : ℚ) < (n : ℚ) + 1 := by positivity
    have hiff : ((4 : ℚ)/5 ≤ jaccardValue t1 t2) ↔ 4 ≤ n := by
      rw [hjac, div_le_div_iff₀ (by norm_num) hpos]
      constructor
      · intro hle
        exact_mod_cast (by linarith : (4 : ℚ) ≤ (n : ℚ))
      · intro hle
        have : (4 : ℚ) ≤ (n : ℚ) := by exact_mod_cast hle
        linarith
    constructor
    · by_cases h1 : titleWordSet t1 = ∅
      · have hn0 : n = 0 := by rw [hn, h1, Finset.card_empty]
        rw [titles_similar, if_pos (Or.inl h1)]
        simp [hn0]
      · have h2ne : titleWordSet t2 ≠ ∅ := by
          rw [h2]
          exact Finset.insert_ne_empty tok _
        rw [titles_similar, if_neg (by tauto)]
        simp only [decide_eq_true_eq]
        exact hiff
    · rw [hjac, div_lt_div_iff₀ (by norm_num) hpos]
      constructor
      · intro hlt
        have h4 : (4 : ℚ) < (n : ℚ) := by linarith
        have h4' : 4 < n := by exact_mod_cast h4
        omega
      · intro hle
        have : (5 : ℚ) ≤ (n : ℚ) := by exact_mod_cast hle
        linarith

/-- Counterexample to C4 as stated: the titles "deep learning models" and
"the deep learning models" differ only by one inserted stopword ("the") and
otherwise have identical word sets, yet the Jaccard similarity is 3/4 < 0.8
and the pair is rejected, not accepted. -/
theorem titles_similar_counterexample :
    titleWordSet "the deep learning models" =
      insert "the" (titleWordSet "deep learning models") ∧
    "the" ∉ titleWordSet "deep learning models" ∧
    jaccardValue "deep learning models" "the deep learning models" = 3/4 ∧
    titles_similar "deep learning models" "the deep learning models" = false := by
  have hci : (titleWordSet "deep learning models" ∩
      titleWordSet "the deep learning models").card = 3 := by decide
  have hcu : (titleWordSet "deep learning models" ∪
      titleWordSet "the deep learning models").card = 4 := by decide
  have hj : jaccardValue "deep learning models" "the deep learning models" = 3/4 := by
    simp only [jaccardValue, hci, hcu]
    norm_num
  refine ⟨by decide, by decide, hj, ?_⟩
  rw [titles_similar, if_neg (by decide), hj]
  simp only [decide_eq_false_iff_not]
  norm_num

/-! ### Harvest deduplication (`harvest.harvest_papers`) -/

/-- Python `str.strip()` on a character list: drop leading and trailing
whitespace. -/
def stripEnds (l : List Char) : List Char :=
  ((l.dropWhile Char.isWhitespace).reverse.dropWhile Char.isWhitespace).reverse

/-- The title normalisation `paper.title.lower().strip()` used by the
deduplication loop of `harvest_papers`. -/
def normalizeTitle (t : String) : String :=
  String.mk (stripEnds (t.data.map Char.toLower))

/-- The deduplication loop of `harvest_papers`: walk the concatenated paper
list, keeping a paper iff its normalised title has not been seen before. -/
def dedupeByTitle : List Paper → List String → List Paper
  | [], _ => []
  | p :: rest, seen =>
    let t := normalizeTitle p.title
    if t ∈ seen then dedupeByTitle rest seen
    else p :: dedupeByTitle rest (t :: seen)

/-- `harvest.harvest_papers` with the fetched results of the two feeds
(arXiv first, PapersWithCode second) passed in as parameters: concatenate
and deduplicate by normalised title, first occurrence winning. -/
def harvest_papersFrom (arxiv_papers pwc_papers : List Paper) : List Paper :=
  dedupeByTitle (arxiv_papers ++ pwc_papers) []

lemma dedupeByTitle_sublist :
    ∀ (l : List Paper) (seen : List String), (dedupeByTitle l seen).Sublist l
  | [], _ => List.Sublist.refl []
  | p :: rest, seen => by
    simp only [dedupeByTitle]
    split
    · exact (dedupeByTitle_sublist rest seen).cons p
    · exact (dedupeByTitle_sublist rest _).cons₂ p

lemma dedupeByTitle_not_seen :
    ∀ (l : List Paper) (seen : List String) (q : Paper),
      q ∈ dedupeByTitle l seen → normalizeTitle q.title ∉ seen
  | [], _, q => by simp [dedupeByTitle]
  | p :: rest, seen, q => by
    simp only [dedupeByTitle]
    split
    · exact dedupeByTitle_not_seen rest seen q
    · next hns =>
      intro hq
      rcases List.mem_cons.mp hq with rfl | hq
      · exact hns
      · exact fun hc =>
          dedupeByTitle_not_seen rest _ q hq (List.mem_cons_of_mem _ hc)

lemma dedupeByTitle_nodup :
    ∀ (l : List Paper) (seen : List String),
      ((dedupeByTitle l seen).map (fun p => normalizeTitle p.title)).Nodup
  | [], _ => by simp [dedupeByTitle]
  | p :: rest, seen => by
    simp only [dedupeByTitle]
    split
    · exact dedupeByTitle_nodup rest seen
    · rw [List.map_cons, List.nodup_cons]
      refine ⟨?_, dedupeByTitle_nodup rest _⟩
      intro hc
      obtain ⟨q, hq, hqt⟩ := List.mem_map.mp hc
      exact dedupeByTitle_not_seen rest _ q hq
        (hqt ▸ List.mem_cons_self _ _)

lemma dedupeByTitle_covers :
    ∀ (l : List Paper) (seen : List String) (p : Paper), p ∈ l →
      normalizeTitle p.title ∈ seen ∨
        ∃ q ∈ dedupeByTitle l seen,
          normalizeTitle q.title = normalizeTitle p.title
  | [], _, p, hp => by cases hp
  | x :: rest, seen, p, hp => by
    simp only [dedupeByTitle]
    split
    · next hin =>
      rcases List.mem_cons.mp hp with rfl | hp
      · exact Or.inl hin
      · exact dedupeByTitle_covers rest seen p hp
    · next hnin =>
      rcases List.mem_cons.mp hp with rfl | hp
      · exact Or.inr ⟨p, List.mem_cons_self _ _, rfl⟩
      · rcases dedupeByTitle_covers rest
          (normalizeTitle x.title :: seen) p hp with hs | ⟨q, hq, hqt⟩
        · rcases List.mem_cons.mp hs with he | hs
          · exact Or.inr ⟨x, List.mem_cons_self _ _, he.symm⟩
          · exact Or.inl hs
        · exact Or.inr ⟨q, List.mem_cons_of_mem _ hq, hqt⟩

lemma dedupeByTitle_first_wins :
    ∀ (l : List Paper) (seen : List String) (q : Paper),
      q ∈ dedupeByTitle l seen →
        l.find? (fun p => normalizeTitle p.title == normalizeTitle q.title) =
          some q
  | [], _, q, hq => by cases hq
  | x :: rest, seen, q, hq => by
    rw [dedupeByTitle] at hq
    split at hq
    · next hin =>
      have hne : normalizeTitle x.title ≠ normalizeTitle q.title := by
        intro hc
        exact dedupeByTitle_not_seen rest seen q hq (hc ▸ hin)
      rw [List.find?_cons_of_neg _ (by simpa using hne)]
      exact dedupeByTitle_first_wins rest seen q hq
    · next hnin =>
      rcases List.mem_cons.mp hq with rfl | hq
      · exact List.find?_cons_of_pos _ (by simp)
      · have hne : normalizeTitle x.title ≠ normalizeTitle q.title := by
          intro hc
          exact dedupeByTitle_not_seen rest _ q hq
            (hc ▸ List.mem_cons_self _ _)
        rw [List.find?_cons_of_neg _ (by simpa using hne)]
        exact dedupeByTitle_first_wins rest _ q hq

/-! ### Claim C5 (amended) -/

/-- C5 (amended): `harvest_papers` deduplicates the concatenation of the two
feeds' results by exact match on lowercased, leading/trailing-whitespace
stripped titles, keeping the first occurrence: the retained papers are a
sublist of the concatenation, no two retained papers share a normalised
title, every harvested normalised title is represented, and each retained
paper is the first paper of the concatenation bearing its normalised title.
(Titles that differ in internal whitespace are not merged.) -/
theorem harvest_papers_dedup_spec (arxiv_papers pwc_papers : List Paper) :
    (harvest_papersFrom arxiv_papers pwc_papers).Sublist
      (arxiv_papers ++ pwc_papers) ∧
    ((harvest_papersFrom arxiv_papers pwc_papers).map
      (fun p => normalizeTitle p.title)).Nodup ∧
    (∀ p ∈ arxiv_papers ++ pwc_papers,
      ∃ q ∈ harvest_papersFrom arxiv_papers pwc_papers,
        normalizeTitle q.title = normalizeTitle p.title) ∧
    (∀ q ∈ harvest_papersFrom arxiv_papers pwc_papers,
      (arxiv_papers ++ pwc_papers).find?
        (fun p => normalizeTitle p.title == normalizeTitle q.title) = some q) := by
  refine ⟨dedupeByTitle_sublist _ [], dedupeByTitle_nodup _ [], ?_, ?_⟩
  · intro p hp
    rcases dedupeByTitle_covers (arxiv_papers ++ pwc_papers) [] p hp with hs | h
    · cases hs
    · exact h
  · intro q hq
    exact dedupeByTitle_first_wins (arxiv_papers ++ pwc_papers) [] q hq

/-- A title with every character lowercased and every whitespace character
removed: two titles are equal up to case and whitespace iff these agree. -/
def caseSpaceCanon (s : String) : String :=
  String.mk ((s.data.map Char.toLower).filter (fun c => !c.isWhitespace))

/-- An arXiv-side paper titled "Same Title". -/
def paperSameA : Paper := mkPaper "a1" "Same Title"

/-- A PapersWithCode-side paper titled "Same  Title" (two internal
blanks). -/
def paperSameB : Paper := mkPaper "p1" "Same  Title"

/-- Counterexample to C5 as stated: the titles "Same Title" and
"Same  Title" are equal up to case and whitespace, yet `harvest_papers`
retains both papers — its normalisation strips only leading and trailing
whitespace, so internal whitespace differences are not merged. -/
theorem harvest_dedup_counterexample :
    caseSpaceCanon "Same Title" = caseSpaceCanon "Same  Title" ∧
    (harvest_papersFrom [paperSameA] [paperSameB]).map (fun p => p.title) =
      ["Same Title", "Same  Title"] ∧
    (harvest_papersFrom [paperSameA] [paperSameB]).length = 2 :=
  ⟨by decide, by decide, by decide⟩

/-! ### Summarisation (`summarise.py`) -/

/-- Python `str.lower()` at the character level. -/
def lowerStr (s : String) : String := String.mk (s.data.map Char.toLower)

/-- The callable surface of an `LLMClient` (OpenAI or Anthropic): each call
reaches the network and may raise, modelled with `Except`. -/
structure LLMClientE where
  generate_summary : Paper → Except String String
  generate_intro : List Paper → Except String String

/-- `summarise.create_llm_client`, with the two provider constructors (which
may themselves raise, e.g. `ImportError`) passed in: dispatch on the
lowercased backend name, raising `ValueError` for any other name. -/
def create_llm_client (mkOpenAI mkAnthropic : String → String → Except String LLMClientE)
    (backend api_key model : String) : Except String LLMClientE :=
  if lowerStr backend = "openai" then mkOpenAI api_key model
  else if lowerStr backend = "anthropic" then mkAnthropic api_key model
  else .error ("Unsupported LLM backend: " ++ backend)

/-- The `try` body of `summarise.summarize_papers`: create the client,
summarise each paper in order, then generate the intro; the first exception
aborts the whole block. -/
def summarizeAttempt (mkOpenAI mkAnthropic : String → String → Except String LLMClientE)
    (papers : List Paper) (backend api_key model : String) :
    Except String (List Paper × String) :=
  (create_llm_client mkOpenAI mkAnthropic backend api_key model).bind fun client =>
  (papers.mapM (fun p =>
    (client.generate_summary p).map fun s => { p with summary := some s })).bind
    fun summarized =>
  (client.generate_intro summarized).map fun intro => (summarized, intro)

/-- `summarise.summarize_papers`: with a falsy API key (absent or empty)
skip all client work and fill the disabled placeholders; otherwise run the
`try` body, and on any exception fill the failed placeholder for every paper
and the apology paragraph for the intro.  The function itself is total: it
never propagates an exception. -/
def summarize_papers (mkOpenAI mkAnthropic : String → String → Except String LLMClientE)
    (papers : List Paper) (backend : String) (api_key : Option String)
    (model : String) : List Paper × String :=
  if api_key.getD "" = "" then
    (papers.map (fun p =>
      { p with summary := some "Summary generation disabled - no API key provided." }),
     "AI research summary generation is currently disabled.")
  else
    match summarizeAttempt mkOpenAI mkAnthropic papers backend (api_key.getD "") model with
    | .ok r => r
    | .error _ =>
      (papers.map (fun p =>
        { p with summary := some "Summary generation failed due to technical error." }),
       "This week's AI research summary could not be generated due to technical difficulties.")

/-! ### Claim C6 -/

/-- C6: with an empty or missing API key, `summarize_papers` touches no LLM
client (its result does not depend on the client constructors) and fills the
fixed disabled placeholders; when an exception reaches its handler during
summarisation (given a non-empty key), every summary is the fixed failure
placeholder and the intro the fixed apology paragraph, and the function
returns normally (it is total by type). -/
theorem summarize_papers_spec
    (mkOpenAI mkAnthropic : String → String → Except String LLMClientE)
    (papers : List Paper) (backend model : String) :
    (∀ api_key : Option String, api_key.getD "" = "" →
      summarize_papers mkOpenAI mkAnthropic papers backend api_key model =
        (papers.map (fun p =>
          { p with summary := some "Summary generation disabled - no API key provided." }),
         "AI research summary generation is currently disabled.") ∧
      ∀ mkO2 mkA2, summarize_papers mkO2 mkA2 papers backend api_key model =
        summarize_papers mkOpenAI mkAnthropic papers backend api_key model) ∧
    (∀ (api_key : Option String) (e : String), api_key.getD "" ≠ "" →
      summarizeAttempt mkOpenAI mkAnthropic papers backend (api_key.getD "") model =
        .error e →
      summarize_papers mkOpenAI mkAnthropic papers backend api_key model =
        (papers.map (fun p =>
          { p with summary := some "Summary generation failed due to technical error." }),
         "This week's AI research summary could not be generated due to technical difficulties.")) := by
  constructor
  · intro api_key hk
    constructor
    · rw [summarize_papers, if_pos hk]
    · intro mkO2 mkA2
      rw [summarize_papers, if_pos hk, summarize_papers, if_pos hk]
  · intro api_key e hk hatt
    rw [summarize_papers, if_neg hk, hatt]

/-- A client constructor that always raises (any API-layer error at
construction time). -/
def mkErrClient : String → String → Except String LLMClientE :=
  fun _ _ => .error "API Error"

/-- Witness for C6: with no key the disabled placeholders are produced, and
with a key but a failing client construction the failure placeholder and
apology paragraph are produced. -/
theorem summarize_papers_spec_witness :
    summarize_papers mkErrClient mkErrClient [paperLow] "openai" none "gpt-4o-mini" =
      ([paperLow].map (fun p =>
        { p with summary := some "Summary generation disabled - no API key provided." }),
       "AI research summary generation is currently disabled.") ∧
    summarize_papers mkErrClient mkErrClient [paperLow] "openai" (some "test-key") "gpt-4o-mini" =
      ([paperLow].map (fun p =>
        { p with summary := some "Summary generation failed due to technical error." }),
       "This week's AI research summary could not be generated due to technical difficulties.") :=
  ⟨((summarize_papers_spec mkErrClient mkErrClient [paperLow] "openai" "gpt-4o-mini").1
      none rfl).1,
   (summarize_papers_spec mkErrClient mkErrClient [paperLow] "openai" "gpt-4o-mini").2
      (some "test-key") "API Error" (by decide) rfl⟩

/-! ### Publishing (`publish.py`) -/

/-- Two-digit zero-padded number (`{:02d}` / `%m`, `%d` of `strftime`). -/
def pad2 (n : Nat) : String := if n < 10 then "0" ++ toString n else toString n

/-- Four-digit zero-padded number (`%Y` of `strftime`). -/
def pad4 (n : Nat) : String :=
  if n < 10 then "000" ++ toString n
  else if n < 100 then "00" ++ toString n
  else if n < 1000 then "0" ++ toString n
  else toString n

/-- `date.strftime("%Y-%m-%d")`. -/
def formatDate (d : Date) : String :=
  pad4 d.year ++ "-" ++ pad2 d.month ++ "-" ++ pad2 d.day

/-- External rendering context of the report: Python float formatting
(`"%.2f"`-style, used for the score line) and the wall-clock timestamp
printed in the footer, both outside the embedding. -/
structure RenderEnv where
  fmtFloat : ℝ → String
  nowStamp : String

/-- The author line of `MarkdownGenerator.generate_report`: first three
authors joined by ", ", then " et al." when there are more. -/
def formatAuthors (authors : List String) : String :=
  let s := String.intercalate ", " (authors.take 3)
  if 3 < authors.length then s ++ " et al." else s

/-- One paper section of the report.  The citations line appears only when
`citation_count` is set, the GitHub line only when `github_url` is truthy
and `github_stars` is set, and the summary paragraph only when `summary` is
truthy; formatting the score line of a paper whose `score` is `None` raises
(`"{paper.score:.2f}"` on `None`), modelled as `Except.error`. -/
def paperSection (r : RenderEnv) (i : Nat) (p : Paper) : Except String String :=
  let authors_str := formatAuthors p.authors
  let head := "### " ++ toString i ++ ". " ++ p.title ++ "\n\n**Authors:** " ++
    authors_str ++ "  \n**Published:** " ++ formatDate p.published_date ++ "  \n"
  let withCitations :=
    match p.citation_count with
    | some c => head ++ "**Citations:** " ++ toString c ++ "  \n"
    | none => head
  let withGithub :=
    match p.github_url, p.github_stars with
    | some u, some s =>
        if u = "" then withCitations
        else withCitations ++ "**GitHub:** [" ++ u ++ "](" ++ u ++ ") (" ++
          toString s ++ " ⭐)  \n"
    | _, _ => withCitations
  match p.score with
  | none => .error "unsupported format string passed to NoneType"
  | some sc =>
    let withScore := withGithub ++ "**Score:** " ++ r.fmtFloat sc ++
      "  \n**Link:** [" ++ p.url ++ "](" ++ p.url ++ ")  \n\n"
    let withSummary :=
      match p.summary with
      | some s => if s = "" then withScore else withScore ++ s ++ "\n\n"
      | none => withScore
    .ok (withSummary ++ "---\n\n")

/-- All paper sections, numbered from `i`; the first failing section aborts
report generation, as in Python. -/
def paperSections (r : RenderEnv) : Nat → List Paper → Except String String
  | _, [] => .ok ""
  | i, p :: rest =>
    (paperSection r i p).bind fun s =>
      (paperSections r (i + 1) rest).map fun t => s ++ t

/-- The front matter and intro block of the report (dates rendered at day
granularity). -/
def reportHeader (intro : String) (date : Date) : String :=
  "---\ntitle: \"AI Research Weekly - " ++ formatDate date ++
    "\"\ndate: \"" ++ formatDate date ++
    "\"\ndescription: \"Weekly digest of top AI research papers\"\n---\n\n" ++
    "# AI Research Weekly - " ++ formatDate date ++ "\n\n" ++ intro ++
    "\n\n## Featured Papers\n\n"

/-- The fixed methodology footer, ending with the generation timestamp. -/
def reportFooter (r : RenderEnv) : String :=
  "\n## Methodology\n\nThis digest was automatically generated using the " ++
    "following methodology:\n\n1. **Paper Collection:** Harvested from arXiv " ++
    "(cs.AI, cs.LG, cs.CL, cs.CV) and PapersWithCode\n   trending papers from " ++
    "the last 7 days\n2. **Enrichment:** Enhanced with citation counts from " ++
    "Semantic Scholar and GitHub star counts\n   where available\n3. " ++
    "**Ranking:** Scored using formula: `0.5×log(citations+1) + " ++
    "0.3×normalized_github_stars +\n   0.2×social_buzz`\n4. " ++
    "**Summarization:** Generated using LLM analysis of abstracts and titles" ++
    "\n\nGenerated on " ++ r.nowStamp ++ "\n"

/-- `publish.MarkdownGenerator.generate_report`: header, one section per
paper (numbered from 1), fixed footer. -/
def generate_report (r : RenderEnv) (papers : List Paper) (intro : String)
    (date : Date) : Except String String :=
  (paperSections r 1 papers).map fun body =>
    reportHeader intro date ++ body ++ reportFooter r

lemma paperSection_error_iff (r : RenderEnv) (i : Nat) (p : Paper) :
    (∃ e, paperSection r i p = .error e) ↔ p.score = none := by
  cases hs : p.score <;> simp [paperSection, hs]

lemma paperSections_error_iff (r : RenderEnv) :
    ∀ (i : Nat) (papers : List Paper),
      (∃ e, paperSections r i papers = .error e) ↔ ∃ p ∈ papers, p.score = none
  | _, [] => by simp [paperSections]
  | i, p :: rest => by
    rw [paperSections]
    cases hs : p.score with
    | none =>
      have : ∃ e, paperSection r i p = .error e :=
        (paperSection_error_iff r i p).mpr hs
      obtain ⟨e, he⟩ := this
      rw [he]
      simp [Except.bind, hs]
    | some sc =>
      have hok : ¬ ∃ e, paperSection r i p = .error e := by
        rw [paperSection_error_iff r i p, hs]
        simp
      cases hsec : paperSection r i p with
      | error e => exact absurd ⟨e, hsec⟩ hok
      | ok s =>
        have ih := paperSections_error_iff r (i + 1) rest
        cases hrest : paperSections r (i + 1) rest with
        | error e =>
          simp only [Except.bind, Except.map]
          constructor
          · intro _
            obtain ⟨q, hq, hqs⟩ := ih.mp ⟨e, hrest⟩
            exact ⟨q, List.mem_cons_of_mem _ hq, hqs⟩
          · intro _
            exact ⟨e, rfl⟩
        | ok t =>
          simp only [Except.bind, Except.map]
          constructor
          · rintro ⟨e, he⟩
            cases he
          · rintro ⟨q, hq, hqs⟩
            rcases List.mem_cons.mp hq with rfl | hq
            · rw [hs] at hqs
              cases hqs
            · exact absurd (ih.mpr ⟨q, hq, hqs⟩) (by simp [hrest])

lemma generate_report_ok (r : RenderEnv) (papers : List Paper) (intro : String)
    (date : Date) (hscores : ∀ p ∈ papers, p.score ≠ none) :
    ∃ md, generate_report r papers intro date = .ok md := by
  cases hb : paperSections r 1 papers with
  | error e =>
    obtain ⟨q, hq, hqs⟩ := (paperSections_error_iff r 1 papers).mp ⟨e, hb⟩
    exact absurd hqs (hscores q hq)
  | ok body =>
    exact ⟨_, by rw [generate_report, hb]; rfl⟩

/-! ### Claim C10 -/

/-- C10: the report renderer is defined exactly on papers that carry a rank
score: `generate_report` raises iff some paper's score is unset, and
succeeds whenever every paper has a score — the other optional per-paper
fields (citations, repository link, stars, summary) never cause an error
(they are omitted from the report instead). -/
theorem generate_report_requires_scores (r : RenderEnv) (papers : List Paper)
    (intro : String) (date : Date) :
    ((∃ e, generate_report r papers intro date = .error e) ↔
      ∃ p ∈ papers, p.score = none) ∧
    ((∀ p ∈ papers, p.score ≠ none) →
      ∃ md, generate_report r papers intro date = .ok md) := by
  constructor
  · constructor
    · rintro ⟨e, he⟩
      rw [generate_report] at he
      cases hb : paperSections r 1 papers with
      | error e2 => exact (paperSections_error_iff r 1 papers).mp ⟨e2, hb⟩
      | ok body => rw [hb] at he; cases he
    · rintro hsome
      obtain ⟨e, he⟩ := (paperSections_error_iff r 1 papers).mpr hsome
      exact ⟨e, by rw [generate_report, he]; rfl⟩
  · exact generate_report_ok r papers intro date

/-- One externally visible effect of `publish_report`: an S3 `put_object`
(destination and content type; the body is the rendered artefact) or an SES
`send_email` (source, destinations, subject). -/
inductive PubEffect where
  | s3put (bucket key contentType : String)
  | sesSend (source : String) (recipients : List String) (subject : String)
deriving Repr, DecidableEq

/-- The record returned by `publish.publish_report`. -/
structure PublishResult where
  latest_url : String
  versioned_url : String
  data_url : String
  email_sent : Bool
deriving Repr, DecidableEq

/-- `publish.SESPublisher.send_report`: skip silently on an empty recipient
list (returning True with no effect), else one `send_email` call whose
success (`sendOutcome`) is decided by the external service. -/
def send_report (sendOutcome : Bool) (sender_email : String)
    (recipients : List String) (date : Date) : Bool × List PubEffect :=
  if recipients = [] then (true, [])
  else (sendOutcome,
    [PubEffect.sesSend sender_email recipients
      ("AI Research Weekly - " ++ formatDate date)])

/-- `publish.publish_report`: render the markdown report, write it under the
latest key and the dated archival key, write the historical data snapshot,
then email the report only when both a sender and a non-empty recipient list
are configured (`if sender_email and recipients`).  Upload failures of the
external store are outside this model; the report rendering itself can raise
(score missing, see `paperSection`). -/
def publish_report (r : RenderEnv) (papers : List Paper) (intro : String)
    (bucket_name : String) (sender_email : Option String)
    (recipients : Option (List String)) (date : Date) (sendOutcome : Bool) :
    Except String (PublishResult × List PubEffect) :=
  (generate_report r papers intro date).map fun _markdown =>
    let filename := "ai-weekly-" ++ formatDate date ++ ".md"
    let latest_key := "latest/" ++ filename
    let versioned_key := "reports/" ++ pad4 date.year ++ "/" ++ pad2 date.month ++
      "/" ++ filename
    let data_key := "history/papers-" ++ formatDate date ++ ".parquet"
    let s3fx : List PubEffect :=
      [PubEffect.s3put bucket_name latest_key "text/markdown",
       PubEffect.s3put bucket_name versioned_key "text/markdown",
       PubEffect.s3put bucket_name data_key "application/octet-stream"]
    let latest_url := "s3://" ++ bucket_name ++ "/" ++ latest_key
    let versioned_url := "s3://" ++ bucket_name ++ "/" ++ versioned_key
    let data_url := "s3://" ++ bucket_name ++ "/" ++ data_key
    if sender_email.getD "" ≠ "" ∧ recipients.getD [] ≠ [] then
      let res := send_report sendOutcome (sender_email.getD "")
        (recipients.getD []) date
      ({ latest_url := latest_url, versioned_url := versioned_url,
         data_url := data_url, email_sent := res.1 }, s3fx ++ res.2)
    else
      ({ latest_url := latest_url, versioned_url := versioned_url,
         data_url := data_url, email_sent := false }, s3fx)

/-! ### Claim C9 -/

/-- C9: whenever the report renders (every paper scored), `publish_report`
returns a record with the three storage locations and an `email_sent` flag;
if the sender is absent or the recipient list absent or empty, no email
effect is emitted and `email_sent` is False while the three storage writes
still occur; otherwise exactly one email send is appended after the three
writes. -/
theorem publish_report_spec (r : RenderEnv) (papers : List Paper)
    (intro : String) (bucket_name : String) (sender_email : Option String)
    (recipients : Option (List String)) (date : Date) (sendOutcome : Bool)
    (hscores : ∀ p ∈ papers, p.score ≠ none) :
    ∃ res fx,
      publish_report r papers intro bucket_name sender_email recipients date
          sendOutcome = .ok (res, fx) ∧
      res.latest_url =
        "s3://" ++ bucket_name ++ "/latest/ai-weekly-" ++ formatDate date ++ ".md" ∧
      res.versioned_url =
        "s3://" ++ bucket_name ++ "/reports/" ++ pad4 date.year ++ "/" ++
          pad2 date.month ++ "/ai-weekly-" ++ formatDate date ++ ".md" ∧
      res.data_url =
        "s3://" ++ bucket_name ++ "/history/papers-" ++ formatDate date ++
          ".parquet" ∧
      ((sender_email.getD "" = "" ∨ recipients.getD [] = []) →
        res.email_sent = false ∧
        fx = [PubEffect.s3put bucket_name
                ("latest/ai-weekly-" ++ formatDate date ++ ".md") "text/markdown",
              PubEffect.s3put bucket_name
                ("reports/" ++ pad4 date.year ++ "/" ++ pad2 date.month ++
                  "/ai-weekly-" ++ formatDate date ++ ".md") "text/markdown",
              PubEffect.s3put bucket_name
                ("history/papers-" ++ formatDate date ++ ".parquet")
                "application/octet-stream"]) ∧
      ((sender_email.getD "" ≠ "" ∧ recipients.getD [] ≠ []) →
        res.email_sent = (if recipients.getD [] = [] then true else sendOutcome) ∧
        fx = [PubEffect.s3put bucket_name
                ("latest/ai-weekly-" ++ formatDate date ++ ".md") "text/markdown",
              PubEffect.s3put bucket_name
                ("reports/" ++ pad4 date.year ++ "/" ++ pad2 date.month ++
                  "/ai-weekly-" ++ formatDate date ++ ".md") "text/markdown",
              PubEffect.s3put bucket_name
                ("history/papers-" ++ formatDate date ++ ".parquet")
                "application/octet-stream"] ++
          (send_report sendOutcome (sender_email.getD "") (recipients.getD [])
            date).2) := by
  obtain ⟨md, hmd⟩ := generate_report_ok r papers intro date hscores
  rw [publish_report, hmd]
  by_cases hcfg : sender_email.getD "" ≠ "" ∧ recipients.getD [] ≠ []
  · refine ⟨_, _, by simp only [Except.map]; rw [if_pos hcfg],
      by apply String.ext; simp, by apply String.ext; simp,
      by apply String.ext; simp, ?_, ?_⟩
    · intro habs
      rcases habs with h | h
      · exact absurd h hcfg.1
      · exact absurd h hcfg.2
    · intro _
      have hk1 : "latest/" ++ ("ai-weekly-" ++ formatDate date ++ ".md") =
          "latest/ai-weekly-" ++ formatDate date ++ ".md" := by
        apply String.ext; simp
      have hk2 : "reports/" ++ pad4 date.year ++ "/" ++ pad2 date.month ++ "/" ++
          ("ai-weekly-" ++ formatDate date ++ ".md") =
          "reports/" ++ pad4 date.year ++ "/" ++ pad2 date.month ++
            "/ai-weekly-" ++ formatDate date ++ ".md" := by
        apply String.ext; simp
      refine ⟨?_, by rw [hk1, hk2]⟩
      simp [send_report, hcfg.2]
  · refine ⟨_, _, by simp only [Except.map]; rw [if_neg hcfg],
      by apply String.ext; simp, by apply String.ext; simp,
      by apply String.ext; simp, ?_, ?_⟩
    · intro _
      have hk1 : "latest/" ++ ("ai-weekly-" ++ formatDate date ++ ".md") =
          "latest/ai-weekly-" ++ formatDate date ++ ".md" := by
        apply String.ext; simp
      have hk2 : "reports/" ++ pad4 date.year ++ "/" ++ pad2 date.month ++ "/" ++
          ("ai-weekly-" ++ formatDate date ++ ".md") =
          "reports/" ++ pad4 date.year ++ "/" ++ pad2 date.month ++
            "/ai-weekly-" ++ formatDate date ++ ".md" := by
        apply String.ext; simp
      exact ⟨rfl, by rw [hk1, hk2]⟩
    · intro hc
      exact absurd hc hcfg

/-- A paper carrying a rank score, for concrete witnesses. -/
noncomputable def paperScored : Paper := { mkPaper "s" "scored paper" with score := some 1 }

/-- A concrete rendering context for witnesses. -/
def renderFixed : RenderEnv := { fmtFloat := fun _ => "1.00", nowStamp := "2026-01-02 03:04:05 UTC" }

/-- Witness for C9: one scored paper, no sender and no recipients — the
three writes occur, no email effect is emitted and `email_sent` is False. -/
theorem publish_report_spec_witness :
    ∃ res fx,
      publish_report renderFixed [paperScored] "intro text" "reports-bucket"
          none none ⟨2026, 1, 2⟩ true = .ok (res, fx) ∧
      res.latest_url =
        "s3://" ++ "reports-bucket" ++ "/latest/ai-weekly-" ++
          formatDate ⟨2026, 1, 2⟩ ++ ".md" ∧
      res.versioned_url =
        "s3://" ++ "reports-bucket" ++ "/reports/" ++ pad4 2026 ++ "/" ++
          pad2 1 ++ "/ai-weekly-" ++ formatDate ⟨2026, 1, 2⟩ ++ ".md" ∧
      res.data_url =
        "s3://" ++ "reports-bucket" ++ "/history/papers-" ++
          formatDate ⟨2026, 1, 2⟩ ++ ".parquet" ∧
      (((none : Option String).getD "" = "" ∨
          (none : Option (List String)).getD [] = []) →
        res.email_sent = false ∧
        fx = [PubEffect.s3put "reports-bucket"
                ("latest/ai-weekly-" ++ formatDate ⟨2026, 1, 2⟩ ++ ".md")
                "text/markdown",
              PubEffect.s3put "reports-bucket"
                ("reports/" ++ pad4 2026 ++ "/" ++ pad2 1 ++ "/ai-weekly-" ++
                  formatDate ⟨2026, 1, 2⟩ ++ ".md") "text/markdown",
              PubEffect.s3put "reports-bucket"
                ("history/papers-" ++ formatDate ⟨2026, 1, 2⟩ ++ ".parquet")
                "application/octet-stream"]) ∧
      (((none : Option String).getD "" ≠ "" ∧
          (none : Option (List String)).getD [] ≠ []) →
        res.email_sent =
          (if (none : Option (List String)).getD [] = [] then true else true) ∧
        fx = [PubEffect.s3put "reports-bucket"
                ("latest/ai-weekly-" ++ formatDate ⟨2026, 1, 2⟩ ++ ".md")
                "text/markdown",
              PubEffect.s3put "reports-bucket"
                ("reports/" ++ pad4 2026 ++ "/" ++ pad2 1 ++ "/ai-weekly-" ++
                  formatDate ⟨2026, 1, 2⟩ ++ ".md") "text/markdown",
              PubEffect.s3put "reports-bucket"
                ("history/papers-" ++ formatDate ⟨2026, 1, 2⟩ ++ ".parquet")
                "application/octet-stream"] ++
          (send_report true ((none : Option String).getD "")
            ((none : Option (List String)).getD []) ⟨2026, 1, 2⟩).2) :=
  publish_report_spec renderFixed [paperScored] "intro text" "reports-bucket"
    none none ⟨2026, 1, 2⟩ true
    (by
      intro p hp
      rw [List.mem_singleton] at hp
      subst hp
      simp [paperScored])

/-! ### Orchestration (`lambda_handler.py`) -/

/-- The `Config` dataclass of `config.py` (the fields `lambda_handler`
reads). -/
structure Config where
  report_bucket : String
  openai_api_key : Option String
  anthropic_api_key : Option String
  semantic_scholar_api_key : Option String
  github_token : Option String
  llm_backend : String
  llm_model : String
  subscribers : Option (List String)
  ses_sender : Option String
  citation_weight : ℝ
  github_weight : ℝ
  social_weight : ℝ
  arxiv_categories : List String
  days_lookback : Nat
  top_k_papers : Nat

/-- The structured content of the handler's response: the `statusCode` and
the fields of the JSON body the claims mention (timing omitted: wall-clock
is outside the embedding). -/
structure LambdaResponse where
  statusCode : Nat
  status : String
  message : String
  papers_count : Option Nat := none
  papers_harvested : Option Nat := none
  papers_published : Option Nat := none

/-- Everything external to the handler: configuration loading, the two
network-bound stages (harvest, enrich), the two LLM client constructors,
the render context, the current date and the SES outcome.  Each fallible
piece returns `Except`. -/
structure PipelineEnv where
  load_config : Except String Config
  harvest : List String → Nat → Except String (List Paper)
  enrich : List Paper → Option String → Option String → Except String (List Paper)
  mkOpenAI : String → String → Except String LLMClientE
  mkAnthropic : String → String → Except String LLMClientE
  render : RenderEnv
  today : Date
  sendOutcome : Bool

/-- Lines 117-123 of `lambda_handler.py`: pick the API key for the
configured backend, raising `ValueError("Unsupported LLM backend: ...")`
for any other backend name. -/
def selectApiKey (config : Config) : Except String (Option String) :=
  if lowerStr config.llm_backend = "openai" then .ok config.openai_api_key
  else if lowerStr config.llm_backend = "anthropic" then .ok config.anthropic_api_key
  else .error ("Unsupported LLM backend: " ++ config.llm_backend)

/-- The `try` body of `lambda_handler`: load config, harvest, short-circuit
with the no-papers success response when nothing was harvested, else
enrich, rank, select the API key, summarise and publish, returning the
success response; any uncaught exception escapes as `Except.error`. -/
noncomputable def runPipeline (env : PipelineEnv) : Except String LambdaResponse :=
  env.load_config.bind fun config =>
  (env.harvest config.arxiv_categories config.days_lookback).bind fun papers =>
  if papers.isEmpty then
    .ok { statusCode := 200, status := "completed",
          message := "No papers found to process", papers_count := some 0 }
  else
    (env.enrich papers config.semantic_scholar_api_key config.github_token).bind
      fun enriched =>
    let top_papers := rank_papers enriched config.top_k_papers
      config.citation_weight config.github_weight config.social_weight
    (selectApiKey config).bind fun api_key =>
    let sres := summarize_papers env.mkOpenAI env.mkAnthropic top_papers
      config.llm_backend api_key config.llm_model
    (publish_report env.render sres.1 sres.2 config.report_bucket
        config.ses_sender config.subscribers env.today env.sendOutcome).bind
      fun _pub =>
    .ok { statusCode := 200, status := "completed",
          message := "AI Weekly pipeline executed successfully",
          papers_harvested := some papers.length,
          papers_published := some sres.1.length }

/-- `lambda_handler.lambda_handler`: the single top-level `except` converts
any exception into a 500 error response; the function itself is total. -/
noncomputable def lambda_handler (env : PipelineEnv) : LambdaResponse :=
  match runPipeline env with
  | .ok r => r
  | .error e =>
    { statusCode := 500, status := "error",
      message := "Pipeline execution failed: " ++ e }

/-! ### Claim C7 -/

/-- C7: when harvesting yields zero papers, the handler returns the 200
response with `papers_count = 0` and the "No papers found to process"
message, and none of the later stages is invoked: the response is the same
for every environment that loads this configuration and harvests nothing,
whatever its enrich, LLM or publish behaviour. -/
theorem lambda_handler_no_papers (env : PipelineEnv) (config : Config)
    (h1 : env.load_config = .ok config)
    (h2 : env.harvest config.arxiv_categories config.days_lookback = .ok []) :
    lambda_handler env =
      { statusCode := 200, status := "completed",
        message := "No papers found to process", papers_count := some 0 } ∧
    ∀ env2 : PipelineEnv, env2.load_config = .ok config →
      env2.harvest config.arxiv_categories config.days_lookback = .ok [] →
      lambda_handler env2 = lambda_handler env := by
  have key : ∀ e : PipelineEnv, e.load_config = .ok config →
      e.harvest config.arxiv_categories config.days_lookback = .ok [] →
      lambda_handler e =
        { statusCode := 200, status := "completed",
          message := "No papers found to process", papers_count := some 0 } := by
    intro e he1 he2
    rw [lambda_handler, runPipeline, he1]
    simp only [Except.bind]
    rw [he2]
    simp
  refine ⟨key env h1 h2, ?_⟩
  intro env2 h21 h22
  rw [key env2 h21 h22, key env h1 h2]

/-- A configuration with the OpenAI backend and no credentials. -/
noncomputable def cfgPlain : Config :=
  { report_bucket := "reports-bucket", openai_api_key := none,
    anthropic_api_key := none, semantic_scholar_api_key := none,
    github_token := none, llm_backend := "openai",
    llm_model := "gpt-4o-mini", subscribers := none, ses_sender := none,
    citation_weight := 0.5, github_weight := 0.3, social_weight := 0.2,
    arxiv_categories := ["cs.AI", "cs.LG", "cs.CL", "cs.CV"],
    days_lookback := 7, top_k_papers := 10 }

/-- A concrete environment whose harvest yields no papers. -/
noncomputable def envNoPapers : PipelineEnv :=
  { load_config := .ok cfgPlain,
    harvest := fun _ _ => .ok [],
    enrich := fun ps _ _ => .ok ps,
    mkOpenAI := mkErrClient,
    mkAnthropic := mkErrClient,
    render := renderFixed,
    today := ⟨2026, 1, 2⟩,
    sendOutcome := true }

/-- Witness for C7 at a concrete environment that harvests nothing. -/
theorem lambda_handler_no_papers_witness :
    lambda_handler envNoPapers =
      { statusCode := 200, status := "completed",
        message := "No papers found to process", papers_count := some 0 } ∧
    ∀ env2 : PipelineEnv, env2.load_config = .ok cfgPlain →
      env2.harvest cfgPlain.arxiv_categories cfgPlain.days_lookback = .ok [] →
      lambda_handler env2 = lambda_handler envNoPapers :=
  lambda_handler_no_papers envNoPapers cfgPlain rfl rfl

/-! ### Claim C8 -/

/-- C8: with at least one harvested paper and a backend name that is neither
"openai" nor "anthropic" (case-insensitively), the pipeline raises
`ValueError("Unsupported LLM backend: ...")` after the ranking step, the
single top-level handler catches it, and the handler returns a 500 error
response whose message contains the substring "Unsupported LLM backend". -/
theorem lambda_handler_unsupported_backend (env : PipelineEnv)
    (config : Config) (papers enriched : List Paper)
    (h1 : env.load_config = .ok config)
    (h2 : env.harvest config.arxiv_categories config.days_lookback = .ok papers)
    (h3 : papers ≠ [])
    (h4 : env.enrich papers config.semantic_scholar_api_key config.github_token =
      .ok enriched)
    (h5 : lowerStr config.llm_backend ≠ "openai")
    (h6 : lowerStr config.llm_backend ≠ "anthropic") :
    runPipeline env = .error ("Unsupported LLM backend: " ++ config.llm_backend) ∧
    (lambda_handler env).statusCode = 500 ∧
    (lambda_handler env).status = "error" ∧
    (lambda_handler env).message =
      "Pipeline execution failed: " ++
        ("Unsupported LLM backend: " ++ config.llm_backend) ∧
    ∃ pre post, (lambda_handler env).message =
      pre ++ "Unsupported LLM backend" ++ post := by
  have hrun : runPipeline env =
      .error ("Unsupported LLM backend: " ++ config.llm_backend) := by
    rw [runPipeline, h1]
    simp only [Except.bind]
    rw [h2]
    have hne : papers.isEmpty = false := by
      simpa [List.isEmpty_iff] using h3
    simp only [hne, Bool.false_eq_true, if_false]
    rw [h4]
    rw [selectApiKey, if_neg h5, if_neg h6]
  have hmsg : (lambda_handler env).message =
      "Pipeline execution failed: " ++
        ("Unsupported LLM backend: " ++ config.llm_backend) := by
    rw [lambda_handler, hrun]
  refine ⟨hrun, by rw [lambda_handler, hrun], by rw [lambda_handler, hrun],
    hmsg, "Pipeline execution failed: ", ": " ++ config.llm_backend, ?_⟩
  rw [hmsg]
  apply String.ext
  simp

/-- A configuration naming an unsupported LLM backend. -/
noncomputable def cfgGemini : Config :=
  { cfgPlain with llm_backend := "gemini" }

/-- A concrete environment that harvests one paper and then hits the
unsupported backend of `cfgGemini`. -/
noncomputable def envGemini : PipelineEnv :=
  { envNoPapers with
    load_config := .ok cfgGemini,
    harvest := fun _ _ => .ok [paperLow] }

/-- Witness for C8 at a concrete environment with backend "gemini". -/
theorem lambda_handler_unsupported_backend_witness :
    runPipeline envGemini =
      .error ("Unsupported LLM backend: " ++ cfgGemini.llm_backend) ∧
    (lambda_handler envGemini).statusCode = 500 ∧
    (lambda_handler envGemini).status = "error" ∧
    (lambda_handler envGemini).message =
      "Pipeline execution failed: " ++
        ("Unsupported LLM backend: " ++ cfgGemini.llm_backend) ∧
    ∃ pre post, (lambda_handler envGemini).message =
      pre ++ "Unsupported LLM backend" ++ post :=
  lambda_handler_unsupported_backend envGemini cfgGemini [paperLow] [paperLow]
    rfl rfl (by simp) rfl (by decide) (by decide)

end AIWeekly
